import Mathlib

/-!
Verification development for the CYOA (choose-your-own-adventure) engine:
a shallow embedding of the document parser (`fileParser.js`), the inventory
store (`inventoryManager.js`), the history/persistence module
(`gameState.js`) and the traversal logic of `menuHandler.js`, followed by
theorems about the embedded operations.

JavaScript strings are embedded as Lean `String`, JS numbers appearing as
item quantities as `Int`, float-valued fields (`parseFloat`) as
`Option ℚ` with `none` playing the role of `NaN`, JS objects used as
string-keyed maps as association lists with unique keys (insertion order
preserved, as JS objects do for non-integer keys), and thrown exceptions
as `Except String`.
-/

namespace CYOA

/-! ## JS string primitives (re-implemented over `List Char`) -/

/-- JS `String.prototype.trim` on a character list (whitespace per `Char.isWhitespace`). -/
def trimChars (l : List Char) : List Char :=
  ((l.dropWhile Char.isWhitespace).reverse.dropWhile Char.isWhitespace).reverse

/-- JS `s.trim()`. -/
def jsTrim (s : String) : String := ⟨trimChars s.data⟩

/-- JS `String.prototype.split` with a single-character separator,
on character lists: `splitChar ',' "a,,b" = ["a", "", "b"]`. -/
def splitChar (sep : Char) : List Char → List (List Char)
  | [] => [[]]
  | c :: cs =>
    let r := splitChar sep cs
    if c = sep then [] :: r
    else
      match r with
      | h :: t => (c :: h) :: t
      | [] => [[c]]

/-- JS `s.split(sep)` for a one-character separator. -/
def jsSplit (s : String) (sep : Char) : List String :=
  (splitChar sep s.data).map (⟨·⟩)

/-- JS `Array.prototype.join(sep)` for an array of strings. -/
def jsJoin (l : List String) (sep : String) : String :=
  ⟨List.intercalate sep.data (l.map String.data)⟩

/-- JS `s.startsWith(p)` (also the Lean model of `String.startsWith`,
kept kernel-reducible by working on `List Char`). -/
def strStartsWith (s p : String) : Bool :=
  p.data.isPrefixOf s.data

/-- Substring search on character lists. -/
def infixOfChars (pat : List Char) : List Char → Bool
  | [] => pat.isEmpty
  | c :: cs => pat.isPrefixOf (c :: cs) || infixOfChars pat cs

/-- JS `s.includes(sub)`: substring containment. -/
def jsIncludes (s sub : String) : Bool :=
  infixOfChars sub.data s.data

/-- Auxiliary for `replaceFirst`: replace the first occurrence of `pat` in `l` by `rep`. -/
def replaceFirstChars (pat rep : List Char) : List Char → List Char
  | [] => []
  | c :: cs =>
    if pat.isPrefixOf (c :: cs) then rep ++ (c :: cs).drop pat.length
    else c :: replaceFirstChars pat rep cs

/-- JS `s.replace(pat, rep)` with a string pattern: replaces the first
occurrence only (no occurrence: the string is returned unchanged).
The embedding assumes `pat` non-empty, which holds at every call site. -/
def replaceFirst (s pat rep : String) : String :=
  ⟨replaceFirstChars pat.data rep.data s.data⟩

/-- ASCII lower-casing, the fragment of JS `toLowerCase` the engine needs. -/
def toLowerAscii (s : String) : String :=
  ⟨s.data.map fun c => if 'A' ≤ c ∧ c ≤ 'Z' then Char.ofNat (c.toNat + 32) else c⟩

/-- Decimal digit test (JS `\d`). -/
def isDigitChar (c : Char) : Bool := '0' ≤ c ∧ c ≤ '9'

/-- Value of a decimal digit list, most significant first. -/
def digitsToNat (l : List Char) : Nat :=
  l.foldl (fun acc c => acc * 10 + (c.toNat - '0'.toNat)) 0

/-- Hexadecimal digit test. -/
def isHexDigitChar (c : Char) : Bool :=
  isDigitChar c || ('a' ≤ c ∧ c ≤ 'f') || ('A' ≤ c ∧ c ≤ 'F')

/-- Value of one hexadecimal digit. -/
def hexDigitVal (c : Char) : Nat :=
  if isDigitChar c then c.toNat - '0'.toNat
  else if 'a' ≤ c ∧ c ≤ 'f' then c.toNat - 'a'.toNat + 10
  else c.toNat - 'A'.toNat + 10

/-- Value of a hexadecimal digit list, most significant first. -/
def hexDigitsToNat (l : List Char) : Nat :=
  l.foldl (fun acc c => acc * 16 + hexDigitVal c) 0

/-- JS `parseInt(s)` (radix-free form): skip leading whitespace, optional
sign, then either a `0x`/`0X` hexadecimal literal or leading decimal
digits; `none` models `NaN` (no digits found). Trailing garbage ignored. -/
def jsParseInt (s : String) : Option Int :=
  let l := s.data.dropWhile Char.isWhitespace
  let (sign, l) : Int × List Char :=
    match l with
    | '-' :: rest => (-1, rest)
    | '+' :: rest => (1, rest)
    | _ => (1, l)
  match l with
  | '0' :: x :: rest =>
    if x = 'x' ∨ x = 'X' then
      let hs := rest.takeWhile isHexDigitChar
      if hs.isEmpty then none else some (sign * hexDigitsToNat hs)
    else
      some (sign * digitsToNat (('0' :: x :: rest).takeWhile isDigitChar))
  | _ =>
    let ds := l.takeWhile isDigitChar
    if ds.isEmpty then none else some (sign * digitsToNat ds)

/-- Assemble a signed decimal value `sign * intDigits.fracDigits * 10^exp`
as a rational via `mkRat` (kept free of field operations so that concrete
values reduce in the kernel). -/
def decimalValue (sign : Int) (intPart fracPart : List Char) (expVal : Int) : ℚ :=
  let num : Int := sign * (digitsToNat intPart * 10 ^ fracPart.length + digitsToNat fracPart)
  if expVal ≥ 0 then mkRat (num * 10 ^ expVal.toNat) (10 ^ fracPart.length)
  else mkRat num (10 ^ fracPart.length * 10 ^ (-expVal).toNat)

/-- JS `parseFloat(s)` restricted to finite decimal literals, the only
values the document format uses: skip leading whitespace, optional sign,
integer digits, optional fraction, optional exponent; trailing garbage is
ignored; `none` models `NaN`. -/
def jsParseFloat (s : String) : Option ℚ :=
  let l := s.data.dropWhile Char.isWhitespace
  let (sign, l) : Int × List Char :=
    match l with
    | '-' :: rest => (-1, rest)
    | '+' :: rest => (1, rest)
    | _ => (1, l)
  let intPart := l.takeWhile isDigitChar
  let l₁ := l.drop intPart.length
  let (fracPart, l₂) : List Char × List Char :=
    match l₁ with
    | '.' :: rest => (rest.takeWhile isDigitChar, rest.drop ((rest.takeWhile isDigitChar).length))
    | _ => ([], l₁)
  if intPart.isEmpty ∧ fracPart.isEmpty then none
  else
    let expVal : Int :=
      match l₂ with
      | e :: rest =>
        if e = 'e' ∨ e = 'E' then
          let (esign, rest') : Int × List Char :=
            match rest with
            | '-' :: r => (-1, r)
            | '+' :: r => (1, r)
            | _ => (1, rest)
          let eds := rest'.takeWhile isDigitChar
          if eds.isEmpty then 0 else esign * digitsToNat eds
        else 0
      | [] => 0
    some (decimalValue sign intPart fracPart expVal)

/-- JS `Number(s)` used for key-value coercion: whole-string conversion;
empty (after trimming) gives `0`; otherwise a signed decimal literal or a
`0x` hexadecimal literal consuming the entire string; `none` models `NaN`. -/
def jsNumber (s : String) : Option ℚ :=
  let l := trimChars s.data
  if l.isEmpty then some 0
  else
    let (sign, l') : Int × List Char :=
      match l with
      | '-' :: rest => (-1, rest)
      | '+' :: rest => (1, rest)
      | _ => (1, l)
    match l' with
    | '0' :: x :: rest =>
      if x = 'x' ∨ x = 'X' then
        if ¬ rest.isEmpty ∧ rest.all isHexDigitChar ∧ sign = 1 then
          some (hexDigitsToNat rest : ℚ)
        else none
      else decimalNumber sign l'
    | _ => decimalNumber sign l'
where
  /-- Whole-string decimal literal `digits[.digits][(e|E)[±]digits]`. -/
  decimalNumber (sign : Int) (l : List Char) : Option ℚ :=
    let intPart := l.takeWhile isDigitChar
    let l₁ := l.drop intPart.length
    let (fracPart, l₂) : List Char × List Char :=
      match l₁ with
      | '.' :: rest => (rest.takeWhile isDigitChar, rest.drop ((rest.takeWhile isDigitChar).length))
      | _ => ([], l₁)
    if intPart.isEmpty ∧ fracPart.isEmpty then none
    else
      match l₂ with
      | [] => some (decimalValue sign intPart fracPart 0)
      | e :: rest =>
        if e = 'e' ∨ e = 'E' then
          let (esign, rest') : Int × List Char :=
            match rest with
            | '-' :: r => (-1, r)
            | '+' :: r => (1, r)
            | _ => (1, rest)
          let eds := rest'.takeWhile isDigitChar
          if eds.isEmpty ∨ ¬ (rest'.drop eds.length).isEmpty then none
          else some (decimalValue sign intPart fracPart (esign * digitsToNat eds))
        else none

/-! ## String-keyed objects as association lists -/

/-- JS object property read with `|| 0` defaulting: first binding of the key. -/
def jsGet (m : List (String × Int)) (k : String) : Int :=
  match m.find? (fun p => p.1 = k) with
  | some p => p.2
  | none => 0

/-- JS object property lookup (plain, `undefined` as `none`). -/
def jsLookup {α : Type} (m : List (String × α)) (k : String) : Option α :=
  (m.find? (fun p => p.1 = k)).map (·.2)

/-- JS object property write: update the first binding in place, else append
(JS objects keep insertion order for string keys). -/
def jsSet {α : Type} (m : List (String × α)) (k : String) (v : α) : List (String × α) :=
  match m with
  | [] => [(k, v)]
  | (k', v') :: rest => if k' = k then (k, v) :: rest else (k', v') :: jsSet rest k v

/-- JS `delete obj[k]`: remove the binding of `k`. -/
def jsDelete {α : Type} (m : List (String × α)) (k : String) : List (String × α) :=
  match m with
  | [] => []
  | (k', v') :: rest => if k' = k then rest else (k', v') :: jsDelete rest k

/-! ## Inventory store (`inventoryManager.js`, class `InventoryManager`)

The manager's `this.inventory` object is embedded as `Inventory`, an
association list from item name to quantity. Quantities are `Int`: the
documents and directives the engine interprets only ever produce integer
quantities (`parseInt`). Mutating methods return the new inventory,
`removeItem` additionally whether it succeeded. -/

/-- The `inventory` field of an `InventoryManager`. -/
abbrev Inventory := List (String × Int)

/-- `hasItem(itemName, requiredQuantity = 1)`: the on-hand quantity
(`|| 0` when absent) is at least the required one; empty name gives `false`. -/
def hasItem (inv : Inventory) (itemName : String) (requiredQuantity : Int := 1) : Bool :=
  if itemName = "" then false
  else jsGet inv itemName ≥ requiredQuantity

/-- `addItem(itemName, quantity = 1)`: increments the stored quantity;
returns `none` (JS `false`, no mutation) for an empty name or `quantity ≤ 0`. -/
def addItem (inv : Inventory) (itemName : String) (quantity : Int := 1) :
    Option Inventory :=
  if itemName = "" ∨ quantity ≤ 0 then none
  else some (jsSet inv itemName (jsGet inv itemName + quantity))

/-- `removeItem(itemName, quantity = 1)`: fails (`none`) without mutation for
an empty name, `quantity ≤ 0`, or insufficient stock; otherwise decrements,
deleting the key when the result is `≤ 0`. -/
def removeItem (inv : Inventory) (itemName : String) (quantity : Int := 1) :
    Option Inventory :=
  if itemName = "" ∨ quantity ≤ 0 then none
  else if ¬ hasItem inv itemName quantity then none
  else
    let inv' := jsSet inv itemName (jsGet inv itemName - quantity)
    if jsGet inv' itemName ≤ 0 then some (jsDelete inv' itemName) else some inv'

/-- JS `parseInt(quantityStr) || 1`: `NaN` and `0` fall back to `1`. -/
def parseIntOr1 (quantityStr : String) : Int :=
  match jsParseInt quantityStr with
  | some q => if q = 0 then 1 else q
  | none => 1

/-- `checkInventoryCondition(condition)`: empty text is satisfied; text with a
colon is split at colons, the first part (trimmed) naming the item and the
second parsed with `parseInt(...) || 1` as the required quantity; text
without a colon is a plain item check with quantity 1. -/
def checkInventoryCondition (inv : Inventory) (condition : String) : Bool :=
  if condition = "" then true
  else if jsIncludes condition ":" then
    match (jsSplit condition ':').map jsTrim with
    | itemName :: quantityStr :: _ => hasItem inv itemName (parseIntOr1 quantityStr)
    | [itemName] => hasItem inv itemName 1
    | [] => hasItem inv "" 1
  else hasItem inv (jsTrim condition) 1

/-- JS destructuring `const [itemName, quantityStr] = parts` on the first
two elements, a missing element read as `undefined` (here `""`; every use
feeds the result to `trim`/`parseInt`, on which `undefined` and `""` agree:
both give an empty item name, resp. quantity `NaN`). -/
def destructurePair (parts : List String) : String × String :=
  match parts with
  | a :: b :: _ => (a, b)
  | [a] => (a, "")
  | [] => ("", "")

/-- The `USE `-branch body of `applyInventoryConsequence` applied to the
already-extracted `itemSpec`: split item and quantity at the colon (quantity
`"1"` when there is none) and remove. -/
def applyUse (inv : Inventory) (itemSpec : String) : Option Inventory :=
  let (itemName, quantityStr) :=
    if jsIncludes itemSpec ":" then destructurePair ((jsSplit itemSpec ':').map jsTrim)
    else (itemSpec, "1")
  removeItem inv itemName (parseIntOr1 quantityStr)

/-- The `SET `-branch body of `applyInventoryConsequence` applied to the
already-extracted `spec`: require the `inventory:` prefix, split item and
quantity, add when positive, remove the absolute value when negative. -/
def applySetInventory (inv : Inventory) (spec : String) : Option Inventory :=
  if strStartsWith spec "inventory:" then
    let itemSpec : String := ⟨spec.data.drop 10⟩
    let (itemName, quantityStr) := destructurePair ((jsSplit itemSpec ':').map jsTrim)
    let quantity := parseIntOr1 quantityStr
    if quantity > 0 then addItem inv itemName quantity
    else if quantity < 0 then removeItem inv itemName (-quantity)
    else none
  else none

/-- `applyInventoryConsequence(consequence)`: `USE <item>[:<qty>]` removes
(`parseInt(qty) || 1` units), `SET inventory:<item>:<qty>` adds when the
parsed quantity is positive and removes its absolute value when negative;
anything else returns `false` (`none`) and leaves the inventory unchanged. -/
def applyInventoryConsequence (inv : Inventory) (consequence : String) :
    Option Inventory :=
  if consequence = "" then none
  else
    let trimmed := jsTrim consequence
    if strStartsWith trimmed "USE " then
      applyUse inv (jsTrim (⟨trimmed.data.drop 4⟩))
    else if strStartsWith trimmed "SET " ∧ jsIncludes trimmed "inventory:" then
      applySetInventory inv (jsTrim (⟨trimmed.data.drop 4⟩))
    else none

/-! ## Choice grammar (`fileParser.js`, `parseChoices`)

The source matches each trimmed line against

`^([A-D])\)\s*(.+?)\s*(?:->|→)\s*(STEP_\d+|ENDING_SUCCESS|ENDING_FAILURE|ENDING_NEUTRAL)(?:\s*\{\s*(.+?)\s*\})?$`

The embedding is a functional parser with the same extension: a line
matches iff it decomposes as label, `)`, a non-empty description segment,
the first arrow (`->` or `→`) whose tail parses as whitespace, a target,
and then either end of line or `{ ... }` with a non-empty body ending at
the final character (the lazy `(.+?)` groups make the regex pick the first
viable arrow and capture the body between the braces; the captures are
trimmed before use, so edge whitespace of the captures is immaterial). -/

/-- One successfully matched choice line: the four capture groups. -/
structure RawChoice where
  label : String
  descRaw : String
  target : String
  extrasRaw : Option String
deriving DecidableEq, Repr

/-- Arrow token (`->` or `→`) at the head of the list; returns the remainder. -/
def arrowAt : List Char → Option (List Char)
  | '-' :: '>' :: rest => some rest
  | '→' :: rest => some rest
  | _ => none

/-- Parse `\s*(TARGET)(?:\s*\{\s*(.+?)\s*\})?$` on the text after an arrow. -/
def tailMatch (l : List Char) : Option (String × Option String) :=
  let l := l.dropWhile Char.isWhitespace
  let targetAndRest : Option (String × List Char) :=
    if "STEP_".data.isPrefixOf l then
      let ds := (l.drop 5).takeWhile isDigitChar
      if ds.isEmpty then none
      else some (⟨"STEP_".data ++ ds⟩, l.drop (5 + ds.length))
    else if "ENDING_SUCCESS".data.isPrefixOf l then some ("ENDING_SUCCESS", l.drop 14)
    else if "ENDING_FAILURE".data.isPrefixOf l then some ("ENDING_FAILURE", l.drop 14)
    else if "ENDING_NEUTRAL".data.isPrefixOf l then some ("ENDING_NEUTRAL", l.drop 14)
    else none
  match targetAndRest with
  | none => none
  | some (target, after) =>
    if after.isEmpty then some (target, none)
    else
      match after.dropWhile Char.isWhitespace with
      | '{' :: bodyClose =>
        match bodyClose.getLast? with
        | some '}' =>
          let body := bodyClose.dropLast
          if body.isEmpty then none else some (target, some ⟨body⟩)
        | _ => none
      | _ => none

/-- Scan for the first arrow position (at least one description character
before it) whose tail matches; returns description, target and extras. -/
def scanArrow (desc : List Char) : List Char → Option (String × String × Option String)
  | [] => none
  | c :: cs =>
    (if desc.isEmpty then none
     else
       (arrowAt (c :: cs)).bind fun after =>
         (tailMatch after).map fun (t, e) => (⟨desc.reverse⟩, t, e)) <|>
    scanArrow (c :: desc) cs

/-- The regex of `parseChoices` as a whole-line match on a trimmed line. -/
def matchChoiceLine (s : String) : Option RawChoice :=
  match s.data with
  | c :: ')' :: rest =>
    if 'A' ≤ c ∧ c ≤ 'D' then
      (scanArrow [] rest).map fun (d, t, e) =>
        { label := ⟨[c]⟩, descRaw := d, target := t, extrasRaw := e }
    else none
  | _ => none

/-- A parsed `Choice` object. -/
structure Choice where
  label : String
  description : String
  target : String
  conditions : List String
  consequences : List String
deriving DecidableEq, Repr

/-- Build the `Choice` from a match: `match[2].trim()` for the description;
extras split at `;`, trimmed, `IF`-prefixed ones becoming conditions (text
after `IF`, trimmed) and `SET`/`USE`-prefixed ones consequences (verbatim). -/
def choiceOfRaw (rc : RawChoice) : Choice :=
  let base : Choice :=
    { label := rc.label, description := jsTrim rc.descRaw, target := rc.target
      conditions := [], consequences := [] }
  match rc.extrasRaw with
  | none => base
  | some e =>
    let extras := ((jsSplit e ';').map jsTrim)
    extras.foldl (fun ch extra =>
      if strStartsWith extra "IF" then
        { ch with conditions := ch.conditions ++ [jsTrim ⟨extra.data.drop 2⟩] }
      else if strStartsWith extra "SET" ∨ strStartsWith extra "USE" then
        { ch with consequences := ch.consequences ++ [extra] }
      else ch) base

/-- `parseChoices(contentLines)`: matched lines become choices in order, a
non-blank unmatched line raises `Malformed choice line` naming the line,
blank lines are skipped. -/
def parseChoices (contentLines : List String) : Except String (List Choice) :=
  match contentLines with
  | [] => .ok []
  | line :: rest =>
    let trimmedLine := jsTrim line
    match matchChoiceLine trimmedLine with
    | some rc => (parseChoices rest).map (choiceOfRaw rc :: ·)
    | none =>
      if trimmedLine ≠ "" then
        .error ("Malformed choice line: \"" ++ trimmedLine ++ "\"")
      else parseChoices rest

/-! ## Document parser (`fileParser.js`) -/

/-- A parsed key-value entry: `Number(value)` when numeric, else the string. -/
inductive KV where
  | num (q : ℚ)
  | str (s : String)
deriving DecidableEq, Repr

/-- `isNaN(Number(value)) ? value : Number(value)`. -/
def coerceValue (value : String) : KV :=
  match jsNumber value with
  | some q => .num q
  | none => .str value

/-- `parseKeyValue(content)`: each non-blank line must contain a colon and
split into exactly two non-blank parts; values are numerically coerced. -/
def parseKeyValue (content : String) : Except String (List (String × KV)) :=
  (jsSplit content '\n').foldlM (fun obj line => do
    let trimmedLine := jsTrim line
    if trimmedLine = "" then pure obj
    else if jsIncludes trimmedLine ":" then
      match jsSplit trimmedLine ':' with
      | [p0, p1] =>
        if jsTrim p0 = "" ∨ jsTrim p1 = "" then
          .error ("Malformed key-value line: \"" ++ trimmedLine ++ "\"")
        else pure (jsSet obj (jsTrim p0) (coerceValue (jsTrim p1)))
      | _ => .error ("Malformed key-value line: \"" ++ trimmedLine ++ "\"")
    else .error ("Malformed key-value line: \"" ++ trimmedLine ++ "\"")) []

/-- One `IF <cond> THEN <action>` record. -/
structure CondRec where
  condition : String
  action : String
deriving DecidableEq, Repr

/-- Head of `l` matches `\s+THEN\s+(.+)$` with the remainder non-blank;
returns the action text (everything after the whitespace run). -/
def thenTail (l : List Char) : Option (List Char) :=
  match l with
  | c :: rest =>
    if c.isWhitespace then
      let rest := rest.dropWhile Char.isWhitespace
      if "THEN".data.isPrefixOf rest then
        let after := rest.drop 4
        match after with
        | a :: after' =>
          if a.isWhitespace then
            let act := after'.dropWhile Char.isWhitespace
            if act.isEmpty then none else some act
          else none
        | [] => none
      else none
    else none
  | [] => none

/-- `^IF\s+(.+)\s+THEN\s+(.+)$` on a trimmed line: the greedy first group
makes the regex split at the last viable `THEN`; captures are trimmed by
the caller, so they are returned trimmed here. -/
def lastThenSplit (acc : List Char) : List Char → Option (List Char × List Char)
  | [] => none
  | c :: cs =>
    match lastThenSplit (c :: acc) cs with
    | some r => some r
    | none =>
      if acc.isEmpty then none
      else
        match thenTail (c :: cs) with
        | some act => some (acc.reverse, act)
        | none => none

/-- `parseConditions(content)`: each non-blank line must match
`^IF\s+(.+)\s+THEN\s+(.+)$`; both captures are trimmed. -/
def parseConditions (content : String) : Except String (List CondRec) :=
  (jsSplit content '\n').foldlM (fun conds line => do
    let trimmedLine := jsTrim line
    if trimmedLine = "" then pure conds
    else
      match trimmedLine.data with
      | 'I' :: 'F' :: w :: rest =>
        if w.isWhitespace then
          match lastThenSplit [] (rest.dropWhile Char.isWhitespace) with
          | some (condChars, actChars) =>
            pure (conds ++ [{ condition := jsTrim ⟨condChars⟩, action := jsTrim ⟨actChars⟩ }])
          | none => .error ("Malformed condition line: \"" ++ trimmedLine ++ "\"")
        else .error ("Malformed condition line: \"" ++ trimmedLine ++ "\"")
      | _ => .error ("Malformed condition line: \"" ++ trimmedLine ++ "\"")) []

/-- `parseCheckpoints(content)`: keep the `STEP_`-prefixed trimmed lines,
stripped of the prefix; everything else is ignored. -/
def parseCheckpoints (content : String) : List String :=
  (((jsSplit content '\n').map jsTrim).filter (strStartsWith · "STEP_")).map
    (replaceFirst · "STEP_" "")

/-- One random-event object under construction (`chance`, `outcome` fields). -/
structure EventRec where
  chance : Option ℚ := none
  outcome : Option String := none
deriving DecidableEq, Repr

/-- Build the event object from one line's comma-separated parts:
each part is split at colons, `chance` parsed with `parseFloat`,
`outcome` kept verbatim; other keys are ignored. -/
def buildEvent (trimmedLine : String) : EventRec :=
  ((jsSplit trimmedLine ',').map jsTrim).foldl (fun ev part =>
    let (key, value) : String × Option String :=
      match (jsSplit part ':').map jsTrim with
      | k :: v :: _ => (k, some v)
      | [k] => (k, none)
      | [] => ("", none)
    if key = "chance" then
      { ev with chance := match value with
          | some v => jsParseFloat v
          | none => none }
    else if key = "outcome" then { ev with outcome := value }
    else ev) {}

/-- JS truthiness of `event.chance` (`NaN` and `0` are falsy). -/
def chanceTruthy (ev : EventRec) : Bool :=
  match ev.chance with
  | some q => q ≠ 0
  | none => false

/-- JS truthiness of `event.outcome` (missing and `""` are falsy). -/
def outcomeTruthy (ev : EventRec) : Bool :=
  match ev.outcome with
  | some s => s ≠ ""
  | none => false

/-- `parseRandomEvent(content)`: a non-blank line's event is kept when both
`chance` and `outcome` are truthy, otherwise the malformed-line error is
raised naming the line. -/
def parseRandomEvent (content : String) : Except String (List EventRec) :=
  (jsSplit content '\n').foldlM (fun events line => do
    let trimmedLine := jsTrim line
    if trimmedLine = "" then pure events
    else
      let event := buildEvent trimmedLine
      if chanceTruthy event ∧ outcomeTruthy event then pure (events ++ [event])
      else .error ("Malformed random event line: \"" ++ trimmedLine ++ "\"")) []

/-- `parseConsequence(content)`: each non-blank line is comma-separated
`target: value` pairs (exactly one colon per pair, numeric coercion); a pair
that does not split in two raises the action error, a line producing zero
pairs raises the line error. -/
def parseConsequence (content : String) :
    Except String (List (List (String × KV))) :=
  (jsSplit content '\n').foldlM (fun consequences line => do
    let trimmedLine := jsTrim line
    if trimmedLine = "" then pure consequences
    else do
      let actions := ((jsSplit trimmedLine ',').map jsTrim)
      let consequence ← actions.foldlM (fun (acc : List (String × KV)) action => do
        match jsSplit action ':' with
        | [p0, p1] => pure (jsSet acc (jsTrim p0) (coerceValue (jsTrim p1)))
        | _ => .error ("Malformed consequence action: \"" ++ action ++ "\""))
        []
      if consequence.length > 0 then pure (consequences ++ [consequence])
      else .error ("Malformed consequence line: \"" ++ trimmedLine ++ "\"")) []

/-- One story step: narrative text plus ordered choices. -/
structure Step where
  narrative : String := ""
  choices : List Choice := []
deriving DecidableEq, Repr

/-- The three fixed endings. -/
structure Endings where
  success : String := ""
  failure : String := ""
  neutral : String := ""
deriving DecidableEq, Repr

/-- The parsed game data object of `parseFile`, plus the `currentStep`
property `menuHandler.js` adds to it at runtime. -/
structure GameData where
  gameName : String := ""
  mainMenuItems : List String := []
  inventory : List (String × KV) := []
  stats : List (String × KV) := []
  /-- The `variables` map of the source (`variables` is reserved in Lean). -/
  varTable : List (String × KV) := []
  steps : List (String × Step) := []
  endings : Endings := {}
  conditions : List CondRec := []
  checkpoints : List String := []
  randomEvents : List EventRec := []
  consequences : List (List (String × KV)) := []
  askForName : Bool := false
  currentStep : Option String := none
deriving DecidableEq, Repr

/-- Scan state of `parseFile`: the object under construction, the open
section and sub-section, and the accumulated content buffer. -/
structure ScanState where
  gameData : GameData := {}
  currentSection : Option String := none
  currentSubSection : Option String := none
  buffer : List String := []
deriving Repr

/-- Create the step entry when absent (`if (!gameData.steps[stepKey])`). -/
def ensureStep (steps : List (String × Step)) (stepKey : String) :
    List (String × Step) :=
  match jsLookup steps stepKey with
  | some _ => steps
  | none => jsSet steps stepKey {}

/-- Update one field of the step entry (created when absent). -/
def updateStep (steps : List (String × Step)) (stepKey : String)
    (f : Step → Step) : List (String × Step) :=
  jsSet steps stepKey (f ((jsLookup (ensureStep steps stepKey) stepKey).getD {}))

/-- `processBuffer()`: flush the buffer into the open (sub-)section.
With a sub-section open, the buffer lands in the step named by
`currentSection` (the source would crash on a `null` section, embedded as
an error); otherwise the top-level switch applies; unknown sections drop
their content. The buffer is cleared afterwards. -/
def processBuffer (st : ScanState) : Except String ScanState := do
  let st' ← do
    match st.currentSubSection with
    | some sub =>
      match st.currentSection with
      | none => .error "TypeError: Cannot read properties of null (reading 'replace')"
      | some sec =>
        let stepKey := replaceFirst sec "STEP_" ""
        let gd := { st.gameData with steps := ensureStep st.gameData.steps stepKey }
        if sub = "NARRATIVE" then
          let steps' := updateStep gd.steps stepKey
            (fun s => { s with narrative := jsTrim (jsJoin st.buffer "\n") })
          pure { st with gameData := { gd with steps := steps' } }
        else if sub = "CHOICES" then do
          let cs ← parseChoices st.buffer
          let steps' := updateStep gd.steps stepKey (fun s => { s with choices := cs })
          pure { st with gameData := { gd with steps := steps' } }
        else pure { st with gameData := gd }
    | none =>
      match st.currentSection with
      | none => pure st
      | some sec =>
        let sectionContent := jsTrim (jsJoin st.buffer "\n")
        let gd := st.gameData
        if sec = "GAME_NAME" then
          pure { st with gameData := { gd with gameName := sectionContent } }
        else if sec = "MAIN_MENU" then
          pure { st with gameData := { gd with mainMenuItems :=
            (((jsSplit sectionContent '\n').map jsTrim).filter (· ≠ "")) } }
        else if sec = "INVENTORY" then do
          let kv ← parseKeyValue sectionContent
          pure { st with gameData := { gd with inventory := kv } }
        else if sec = "STATS" then do
          let kv ← parseKeyValue sectionContent
          pure { st with gameData := { gd with stats := kv } }
        else if sec = "VARIABLES" then do
          let kv ← parseKeyValue sectionContent
          pure { st with gameData := { gd with varTable := kv } }
        else if sec = "ENDING_SUCCESS" then
          pure { st with gameData :=
            { gd with endings := { gd.endings with success := sectionContent } } }
        else if sec = "ENDING_FAILURE" then
          pure { st with gameData :=
            { gd with endings := { gd.endings with failure := sectionContent } } }
        else if sec = "ENDING_NEUTRAL" then
          pure { st with gameData :=
            { gd with endings := { gd.endings with neutral := sectionContent } } }
        else if sec = "CONDITIONS" then do
          let cs ← parseConditions sectionContent
          pure { st with gameData := { gd with conditions := cs } }
        else if sec = "CHECKPOINT" then
          pure { st with gameData :=
            { gd with checkpoints := parseCheckpoints sectionContent } }
        else if sec = "RANDOM_EVENT" then do
          let es ← parseRandomEvent sectionContent
          pure { st with gameData := { gd with randomEvents := es } }
        else if sec = "CONSEQUENCE" then do
          let cs ← parseConsequence sectionContent
          pure { st with gameData := { gd with consequences := cs } }
        else if sec = "NAME" then
          pure { st with gameData :=
            { gd with askForName := toLowerAscii sectionContent = "true" } }
        else pure st
  pure { st' with buffer := [] }

/-- Handle one input line of the `parseFile` scan. -/
def scanLine (st : ScanState) (line : String) : Except String ScanState := do
  let trimmedLine := jsTrim line
  if strStartsWith trimmedLine "[" ∧ trimmedLine.data.getLast? = some ']' then do
    let st ← processBuffer st
    let tag : String := ⟨(trimmedLine.data.drop 1).dropLast⟩
    if strStartsWith tag "STEP_" then
      let stepKey := replaceFirst tag "STEP_" ""
      let gd := { st.gameData with steps := ensureStep st.gameData.steps stepKey }
      pure { st with currentSection := some tag, currentSubSection := none, gameData := gd }
    else if tag = "NARRATIVE" ∨ tag = "CHOICES" then
      match st.currentSection with
      | some sec =>
        if strStartsWith sec "STEP_" then
          pure { st with currentSubSection := some tag }
        else
          .error ("Invalid .adv file format: [" ++ tag ++ "] found outside of a [STEP_X] block.")
      | none =>
        .error ("Invalid .adv file format: [" ++ tag ++ "] found outside of a [STEP_X] block.")
    else if strStartsWith tag "/" then
      if tag = "/" ++ (st.currentSubSection.getD "null") then
        pure { st with currentSubSection := none }
      else if tag = "/" ++ (st.currentSection.getD "null") then
        pure { st with currentSection := none }
      else pure st
    else
      pure { st with currentSection := some tag, currentSubSection := none }
  else
    pure { st with buffer := st.buffer ++ [line] }

/-- `parseFile(content)`: scan all lines, flush the trailing buffer, then
the three final validations. -/
def parseFile (content : String) : Except String GameData := do
  let st ← (jsSplit content '\n').foldlM scanLine {}
  let st ← processBuffer st
  let gameData := st.gameData
  if gameData.gameName = "" then
    .error "Invalid .adv file format: Missing [GAME_NAME] section."
  else if gameData.mainMenuItems.length = 0 then
    .error "Invalid .adv file format: Missing or empty [MAIN_MENU] section."
  else if gameData.steps.length = 0 then
    .error "Invalid .adv file format: No [STEP_X] sections found."
  else pure gameData

/-! ## Traversal engine (`menuHandler.js`) and history/persistence (`gameState.js`)

The module-level mutable variables of the two files (`gameData`,
`isGoingBack`, `currentMenuItems`, `currentMenuType` in `menuHandler.js`;
`storyHistory`, `currentHistoryIndex`, `gameStats`, `userName` and the
global `InventoryManager` in `gameState.js`) are collected into one
explicit `EngineState`; each embedded function returns the new state,
paired with the error message it would print, if any (DOM rendering,
animation and focus handling are dropped as pure output). -/

/-- The `gameStats` object. -/
structure GameStats where
  playTime : Int := 0
  choicesMade : Int := 0
deriving DecidableEq, Repr

/-- The combined mutable module state of `menuHandler.js` and `gameState.js`. -/
structure EngineState where
  gameData : GameData := {}
  storyHistory : List String := []
  currentHistoryIndex : Int := -1
  inventory : Inventory := []
  userName : String := ""
  gameStats : GameStats := {}
  isGoingBack : Bool := false
  currentMenuItems : List String := []
  currentMenuType : String := "main"
deriving DecidableEq, Repr

/-- JS truthiness of an optional string (`undefined` and `""` are falsy). -/
def optStrTruthy (o : Option String) : Bool :=
  match o with
  | some s => s ≠ ""
  | none => false

/-- `Array.prototype.slice(0, e)` (negative `e` counts from the end). -/
def jsSlice {α : Type} (l : List α) (e : Int) : List α :=
  if e < 0 then l.take ((l.length : Int) + e).toNat else l.take e.toNat

/-- `pushStoryToHistory(story)`: moving forward after going back first
discards the history beyond the current index, then appends. -/
def pushStoryToHistory (s : EngineState) (story : String) : EngineState :=
  let hist :=
    if s.currentHistoryIndex < (s.storyHistory.length : Int) - 1 then
      jsSlice s.storyHistory (s.currentHistoryIndex + 1)
    else s.storyHistory
  let hist := hist ++ [story]
  { s with storyHistory := hist, currentHistoryIndex := (hist.length : Int) - 1 }

/-- `goBackInHistory()`: when the index is positive, decrement it and return
the entry now at the index; otherwise return `null` and change nothing. -/
def goBackInHistory (s : EngineState) : EngineState × Option String :=
  if s.currentHistoryIndex > 0 then
    let i := s.currentHistoryIndex - 1
    ({ s with currentHistoryIndex := i }, s.storyHistory.get? i.toNat)
  else (s, none)

/-- `canGoBack()`. -/
def canGoBack (s : EngineState) : Bool :=
  s.currentHistoryIndex > 0

/-- `clearStoryHistory()`. -/
def clearStoryHistory (s : EngineState) : EngineState :=
  { s with storyHistory := [], currentHistoryIndex := -1 }

/-- Global-regex `description.replace(/\[USER\]/g, name)` for a non-empty
pattern (`(c :: cs).drop pat.length` written as `cs.drop (pat.length - 1)`
for termination; the two agree whenever `pat` is non-empty). -/
def replaceAllChars (pat rep : List Char) : List Char → List Char
  | [] => []
  | c :: cs =>
    if pat.isPrefixOf (c :: cs) then rep ++ replaceAllChars pat rep (cs.drop (pat.length - 1))
    else c :: replaceAllChars pat rep cs
termination_by l => l.length
decreasing_by
  · simp only [List.length_cons, List.length_drop]; omega
  · simp [List.length_cons]

/-- Replace `[USER]` by the user name when one is set. -/
def replaceUser (s : EngineState) (text : String) : String :=
  if s.userName ≠ "" then ⟨replaceAllChars "[USER]".data s.userName.data text.data⟩
  else text

/-- Truthiness of `gameData.currentStep`. -/
def currentStepTruthy (gd : GameData) : Bool :=
  optStrTruthy gd.currentStep

/-- `gameData.endings[endingType]`: property read on the endings object. -/
def endingsGet (e : Endings) (kind : String) : Option String :=
  if kind = "success" then some e.success
  else if kind = "failure" then some e.failure
  else if kind = "neutral" then some e.neutral
  else none

/-- `displayStoryAndMenu(terminal, stepKey)` state effect: push the current
step to history unless navigating back, reset the back flag, make `stepKey`
current, then either report a missing step or rebuild the choice menu (all
of the step's choices, with an appended `Return to the previous page` item
when history allows going back). -/
def displayStoryAndMenu (s : EngineState) (stepKey : String) :
    EngineState × Option String :=
  let s :=
    if ¬ s.isGoingBack ∧ currentStepTruthy s.gameData then
      pushStoryToHistory s (s.gameData.currentStep.getD "")
    else s
  let s := { s with isGoingBack := false }
  let s := { s with gameData.currentStep := some stepKey }
  match jsLookup s.gameData.steps stepKey with
  | none => (s, some ("Error: Step " ++ stepKey ++ " not found."))
  | some step =>
    if step.choices.length > 0 then
      let items := step.choices.map fun c => c.label ++ ") " ++ replaceUser s c.description
      let items :=
        if canGoBack s then
          items ++ [⟨[Char.ofNat ('a'.toNat + items.length)]⟩ ++ ") Return to the previous page"]
        else items
      ({ s with currentMenuItems := items, currentMenuType := "story_choices" }, none)
    else
      ({ s with currentMenuItems := [], currentMenuType := "" }, none)

/-- `displayMainMenu(terminal, data)` state effect: store the game data,
clear the history, and activate the main menu. -/
def displayMainMenu (s : EngineState) (data : GameData) : EngineState :=
  let s := { s with gameData := data }
  let s := clearStoryHistory s
  { s with currentMenuItems := data.mainMenuItems, currentMenuType := "main" }

/-- The `Start New Game` branch of `handleMenuNavigation`: optionally collect
the user name, set the current step to `"1"` and enter it. -/
def startNewGame (s : EngineState) (enteredName : String) :
    EngineState × Option String :=
  let s := if s.gameData.askForName then { s with userName := enteredName } else s
  let s := { s with gameData.currentStep := some "1" }
  displayStoryAndMenu s "1"

/-- The back-navigation handler shared by the story-choices branch: set the
back flag, pop via `goBackInHistory`, re-enter the returned step when truthy. -/
def goBackSelect (s : EngineState) : EngineState × Option String :=
  let s := { s with isGoingBack := true }
  let (s, previousStep) := goBackInHistory s
  if optStrTruthy previousStep then displayStoryAndMenu s (previousStep.getD "")
  else (s, some "No previous page to return to.")

/-- The `story_choices` branch of `handleMenuNavigation` with the selection
at `choiceIndex`: a stored choice at that index navigates (ending kinds show
the stored ending text and switch to the ending menu without touching the
step state; step targets transition via `displayStoryAndMenu`); otherwise a
selected `Return to the previous page` item goes back, and anything else is
an invalid choice. No condition of the choice is checked and no consequence
is applied anywhere in this branch. -/
def handleMenuNavigationStory (s : EngineState) (choiceIndex : Nat) :
    EngineState × Option String :=
  let selectedItem := (s.currentMenuItems.get? choiceIndex).getD ""
  let currentStep := s.gameData.currentStep.bind (jsLookup s.gameData.steps)
  match currentStep with
  | some step =>
    match step.choices.get? choiceIndex with
    | some choice =>
      let targetStep := replaceFirst choice.target "STEP_" ""
      if strStartsWith targetStep "ENDING_" then
        let endingType := toLowerAscii (replaceFirst targetStep "ENDING_" "")
        let endingText := (endingsGet s.gameData.endings endingType).getD ""
        if endingText ≠ "" then
          ({ s with
              currentMenuItems := ["Return to the previous page", "Quit to the command prompt"],
              currentMenuType := "ending_options" }, none)
        else (s, some ("Error: Ending " ++ endingType ++ " not found."))
      else
        let s := { s with gameData.currentStep := some targetStep }
        displayStoryAndMenu s targetStep
    | none =>
      if jsIncludes selectedItem "Return to the previous page" then goBackSelect s
      else (s, some "Invalid choice.")
  | none =>
    if jsIncludes selectedItem "Return to the previous page" then goBackSelect s
    else (s, some "Invalid choice.")

/-! ### Persistence (`gameState.js` save/load, `menuHandler.js` Load Game) -/

/-- `InventoryManager.serialize()`. -/
structure InventorySnapshot where
  inventory : Inventory
  totalItems : Int
deriving DecidableEq, Repr

/-- `getTotalItemCount()`. -/
def getTotalItemCount (inv : Inventory) : Int :=
  (inv.map (·.2)).foldl (· + ·) 0

/-- `getSerializableGameState(currentStep)`: the full serialized snapshot. -/
structure SaveBlob where
  userName : String
  storyHistory : List String
  currentHistoryIndex : Int
  currentStep : Option String
  gameStats : GameStats
  inventory : InventorySnapshot
deriving DecidableEq, Repr

/-- `getSerializableGameState(currentStep)` over the engine state. -/
def getSerializableGameState (s : EngineState) (currentStep : Option String) :
    SaveBlob :=
  { userName := s.userName
    storyHistory := s.storyHistory
    currentHistoryIndex := s.currentHistoryIndex
    currentStep := currentStep
    gameStats := s.gameStats
    inventory := { inventory := s.inventory, totalItems := getTotalItemCount s.inventory } }

/-- `loadGameState(gameName, slot)`: look up
`piGameSavestate_${gameName}_${slot}` in `localStorage` (modeled as an
association list of already-parsed blobs, JSON round-tripping being the
identity on them); on a hit restore user name, history, stats and
inventory and return the blob, otherwise return `null` and change nothing.
The two parameters are the `${...}`-coerced strings of the JS arguments. -/
def loadGameState (store : List (String × SaveBlob)) (gameName slot : String)
    (s : EngineState) : Option SaveBlob × EngineState :=
  let savestateKey := "piGameSavestate_" ++ gameName ++ "_" ++ slot
  match jsLookup store savestateKey with
  | some b =>
    let s := { s with
      userName := b.userName
      storyHistory := b.storyHistory
      currentHistoryIndex := b.currentHistoryIndex
      gameStats := b.gameStats
      inventory := b.inventory.inventory }
    (some b, s)
  | none => (none, s)

/-- The `Load Game` branch of `handleMenuNavigation` after the selected save
file's JSON parsed to `gameState`: the source calls
`loadGameState(gameState)` although `gameState.js` declares
`loadGameState(gameName, slot)`, so the blob object coerces to
`"[object Object]"` and the missing slot to `"undefined"` in the storage
key; afterwards only `gameState.currentStep` is used to re-enter a step. -/
def loadGameFromFile (store : List (String × SaveBlob)) (s : EngineState)
    (gameState : SaveBlob) : EngineState × Option String :=
  let (_, s) := loadGameState store "[object Object]" "undefined" s
  if optStrTruthy gameState.currentStep then
    let s := { s with gameData.currentStep := gameState.currentStep }
    displayStoryAndMenu s (gameState.currentStep.getD "")
  else (s, some "Loaded game state, but no current step found.")

/-! ### Session abstraction

The spec's `SessionState` consists of the current step, the visited-step
history (excluding the step currently displayed) and the inventory
snapshot. In the code the entry at `currentHistoryIndex` is always the
step currently displayed, so the spec-level history is the part of
`storyHistory` strictly before the index. -/

/-- The spec-level history: entries strictly before the current index. -/
def abstractHistory (s : EngineState) : List String :=
  s.storyHistory.take s.currentHistoryIndex.toNat

/-- The spec-level view of a session: current step, history, inventory. -/
structure SessionView where
  currentStep : Option String
  history : List String
  inventory : Inventory
deriving DecidableEq, Repr

/-- Project the engine state onto the spec-level session. -/
def sessionView (s : EngineState) : SessionView :=
  { currentStep := s.gameData.currentStep
    history := abstractHistory s
    inventory := s.inventory }

/-! ## Spec-side condition grammar (for comparison with `checkInventoryCondition`)

The specification describes two recognized condition forms, `<item>`
(quantity at least 1) and `<item>:<qty>` (quantity at least `qty`); these
two predicates are modelled from the spec wording, to be compared with the
source-derived `checkInventoryCondition`. -/

/-- Spec form `<item>`: a non-empty colon-free item name. -/
def specCondItemForm (t : String) : Bool :=
  t ≠ "" ∧ ¬ jsIncludes t ":"

/-- Spec form `<item>:<qty>`: item name, one colon, decimal quantity. -/
def specCondItemQtyForm (t : String) : Bool :=
  match jsSplit t ':' with
  | [i, q] => i ≠ "" ∧ q ≠ "" ∧ q.data.all isDigitChar
  | _ => false

/-! ## Concrete documents and states used by the claims -/

/-- C1 document: the sole choice of step 1 is gated by `IF key`, and the
document defines no inventory, so the condition is unmet at the start. -/
def c1doc : String :=
  "[GAME_NAME]\nTest\n[/GAME_NAME]\n[MAIN_MENU]\nStart New Game\n[/MAIN_MENU]\n[STEP_1]\n[NARRATIVE]\nYou wake.\n[/NARRATIVE]\n[CHOICES]\nA) Use the key -> STEP_2 {IF key}\n[/CHOICES]\n[/STEP_1]\n[STEP_2]\n[NARRATIVE]\nLight.\n[/NARRATIVE]\n[/STEP_2]"

/-- The game data parsed from `c1doc`. -/
def c1gd : GameData := (parseFile c1doc).toOption.getD {}

/-- The session after loading `c1doc` and starting a new game (empty inventory). -/
def c1s : EngineState := (startNewGame (displayMainMenu {} c1gd) "").1

/-- C2 document: the spec scenario, a choice carrying the `USE key`
consequence. -/
def c2doc : String :=
  "[GAME_NAME]\nTest\n[/GAME_NAME]\n[MAIN_MENU]\nStart New Game\n[/MAIN_MENU]\n[INVENTORY]\nkey: 1\n[/INVENTORY]\n[STEP_1]\n[NARRATIVE]\nA door.\n[/NARRATIVE]\n[CHOICES]\nA) Use key -> STEP_3 {USE key}\n[/CHOICES]\n[/STEP_1]\n[STEP_3]\n[NARRATIVE]\nThrough.\n[/NARRATIVE]\n[/STEP_3]"

/-- The game data parsed from `c2doc`. -/
def c2gd : GameData := (parseFile c2doc).toOption.getD {}

/-- The session after starting `c2doc` with the documented inventory
`key: 1` installed in the inventory store. -/
def c2s : EngineState :=
  (startNewGame { displayMainMenu {} c2gd with inventory := [("key", 1)] } "").1

/-- C3 document: the choice target `STEP_99` resolves neither to a present
step nor to an ending kind. -/
def c3doc : String :=
  "[GAME_NAME]\nTest\n[/GAME_NAME]\n[MAIN_MENU]\nStart New Game\n[/MAIN_MENU]\n[STEP_1]\n[NARRATIVE]\nYou wake.\n[/NARRATIVE]\n[CHOICES]\nA) Go -> STEP_99\n[/CHOICES]\n[/STEP_1]"

/-- The game data parsed from `c3doc`. -/
def c3gd : GameData := (parseFile c3doc).toOption.getD {}

/-- The session after starting `c3doc`. -/
def c3s : EngineState := (startNewGame (displayMainMenu {} c3gd) "").1

/-- C4 document: three steps, enough to build a session with history. -/
def c4doc : String :=
  "[GAME_NAME]\nTest\n[/GAME_NAME]\n[MAIN_MENU]\nStart New Game\n[/MAIN_MENU]\n[STEP_1]\n[CHOICES]\nA) go -> STEP_2\n[/CHOICES]\n[/STEP_1]\n[STEP_2]\n[CHOICES]\nA) on -> STEP_3\n[/CHOICES]\n[/STEP_2]\n[STEP_3]\n[NARRATIVE]\nEnd.\n[/NARRATIVE]\n[/STEP_3]"

/-- The game data parsed from `c4doc`. -/
def c4gd : GameData := (parseFile c4doc).toOption.getD {}

/-- A played session of `c4doc`: new game, then the choice to step 2, with
a non-trivial inventory and user name. -/
def c4s : EngineState :=
  (handleMenuNavigationStory
    { (startNewGame (displayMainMenu {} c4gd) "").1 with
        inventory := [("key", 1)], userName := "Sam" } 0).1

/-- The save blob written for `c4s` (`getSerializableGameState(gameData.currentStep)`). -/
def c4blob : SaveBlob := getSerializableGameState c4s c4s.gameData.currentStep

/-- The state resumed from `c4blob` in a fresh browser session: the `.adv`
document freshly loaded (default inventory, no user name, cleared history,
empty `localStorage`), then the Load Game branch run on the blob. -/
def c4resumed : EngineState × Option String :=
  loadGameFromFile [] (displayMainMenu {} c4gd) c4blob

/-- C5 witness state: step 2 current, step 1 in the history, an inventory. -/
def c5s : EngineState :=
  { gameData := { c4gd with currentStep := some "2" }
    storyHistory := ["1", "2"]
    currentHistoryIndex := 1
    inventory := [("key", 1)]
    currentMenuType := "story_choices" }

/-- C5 witness state with empty history: freshly entered step 1. -/
def c5s0 : EngineState :=
  { gameData := { c4gd with currentStep := some "1" }
    storyHistory := ["1"]
    currentHistoryIndex := 0
    inventory := [("key", 1)]
    currentMenuType := "story_choices" }

/-- C6 document: one CHOICES block with two well-formed lines sharing the
label `A`. -/
def c6doc : String :=
  "[GAME_NAME]\nTest\n[/GAME_NAME]\n[MAIN_MENU]\nStart New Game\n[/MAIN_MENU]\n[STEP_1]\n[NARRATIVE]\nPick.\n[/NARRATIVE]\n[CHOICES]\nA) left -> STEP_2\nA) right -> STEP_3\n[/CHOICES]\n[/STEP_1]\n[STEP_2]\n[NARRATIVE]\nL.\n[/NARRATIVE]\n[/STEP_2]\n[STEP_3]\n[NARRATIVE]\nR.\n[/NARRATIVE]\n[/STEP_3]"

/-- The game data parsed from `c6doc`. -/
def c6gd : GameData := (parseFile c6doc).toOption.getD {}

/-! ## Lemmas about the object and string primitives -/

theorem jsGet_jsSet (m : Inventory) (k : String) (v : Int) :
    jsGet (jsSet m k v) k = v := by
  induction m with
  | nil => simp [jsGet, jsSet, List.find?]
  | cons p rest ih =>
    obtain ⟨k', v'⟩ := p
    by_cases h : k' = k
    · simp [jsGet, jsSet, h, List.find?]
    · simp only [jsSet, if_neg h]
      simpa [jsGet, List.find?, h] using ih

theorem jsGet_eq_zero_of_not_mem (m : Inventory) (k : String)
    (h : k ∉ m.map Prod.fst) : jsGet m k = 0 := by
  induction m with
  | nil => simp [jsGet, List.find?]
  | cons p rest ih =>
    simp only [List.map_cons, List.mem_cons, not_or] at h
    have hk : p.1 ≠ k := fun hh => h.1 hh.symm
    simp only [jsGet, List.find?, hk, decide_eq_true_eq, decide_False]
    simpa [jsGet] using ih h.2

theorem mem_keys_jsSet {α : Type} (m : List (String × α)) (k a : String) (v : α)
    (h : a ∈ (jsSet m k v).map Prod.fst) : a ∈ m.map Prod.fst ∨ a = k := by
  induction m with
  | nil => simp [jsSet] at h; simp [h]
  | cons p rest ih =>
    obtain ⟨k', v'⟩ := p
    by_cases hk : k' = k
    · simp [jsSet, hk] at h
      rcases h with h | h
      · right; exact h
      · left; simp [h]
    · simp only [jsSet, if_neg hk, List.map_cons, List.mem_cons] at h
      rcases h with h | h
      · left; simp [h]
      · rcases ih h with h' | h'
        · left; simp [h']
        · right; exact h'

theorem keys_nodup_jsSet {α : Type} (m : List (String × α)) (k : String) (v : α)
    (h : (m.map Prod.fst).Nodup) : ((jsSet m k v).map Prod.fst).Nodup := by
  induction m with
  | nil => simp [jsSet]
  | cons p rest ih =>
    obtain ⟨k', v'⟩ := p
    simp only [List.map_cons, List.nodup_cons] at h
    by_cases hk : k' = k
    · subst hk
      simpa [jsSet, List.nodup_cons] using h
    · simp only [jsSet, if_neg hk, List.map_cons, List.nodup_cons]
      refine ⟨fun hmem => ?_, ih h.2⟩
      rcases mem_keys_jsSet rest k k' v hmem with h' | h'
      · exact h.1 h'
      · exact hk h'

theorem jsGet_jsDelete (m : Inventory) (k : String)
    (h : (m.map Prod.fst).Nodup) : jsGet (jsDelete m k) k = 0 := by
  induction m with
  | nil => simp [jsDelete, jsGet, List.find?]
  | cons p rest ih =>
    obtain ⟨k', v'⟩ := p
    simp only [List.map_cons, List.nodup_cons] at h
    by_cases hk : k' = k
    · subst hk
      simp only [jsDelete, if_pos rfl]
      exact jsGet_eq_zero_of_not_mem rest k' h.1
    · simp only [jsDelete, if_neg hk]
      have : jsGet ((k', v') :: jsDelete rest k) k = jsGet (jsDelete rest k) k := by
        simp [jsGet, List.find?, hk]
      rw [this]
      exact ih h.2

theorem dropWhile_eq_self_of_forall {p : Char → Bool} {l : List Char}
    (h : ∀ c ∈ l, p c = false) : l.dropWhile p = l := by
  cases l with
  | nil => rfl
  | cons c cs => simp [List.dropWhile, h c (List.mem_cons_self c cs)]

theorem trimChars_append_of_nows (pre rest : List Char)
    (hh : ∀ c, pre.head? = some c → c.isWhitespace = false)
    (hr : ∀ c ∈ rest, c.isWhitespace = false)
    (hrne : rest ≠ []) : trimChars (pre ++ rest) = pre ++ rest := by
  unfold trimChars
  have d1 : (pre ++ rest).dropWhile Char.isWhitespace = pre ++ rest := by
    cases pre with
    | nil => simpa using dropWhile_eq_self_of_forall hr
    | cons c cs => simp [List.dropWhile, hh c rfl]
  rw [d1]
  have d2 : (pre ++ rest).reverse.dropWhile Char.isWhitespace = (pre ++ rest).reverse := by
    rw [List.reverse_append]
    cases hrv : rest.reverse with
    | nil => exact absurd (List.reverse_eq_nil_iff.mp hrv) hrne
    | cons c cs =>
      have hc : c ∈ rest := by
        rw [← List.mem_reverse, hrv]; exact List.mem_cons_self c cs
      simp [List.dropWhile, hr c hc]
  rw [d2, List.reverse_reverse]

theorem trimChars_of_nows {l : List Char}
    (h : ∀ c ∈ l, c.isWhitespace = false) : trimChars l = l := by
  cases hl : l with
  | nil => rfl
  | cons c cs =>
    have := trimChars_append_of_nows [] (c :: cs)
      (fun c h => by simp at h) (by rw [← hl]; exact h) (by simp)
    simpa using this

theorem isPrefixOf_append (l t : List Char) : l.isPrefixOf (l ++ t) = true := by
  rw [List.isPrefixOf_iff_prefix]
  exact List.prefix_append l t

theorem infixOfChars_append_left (pre pat rest : List Char) (hpat : pat ≠ []) :
    infixOfChars pat (pre ++ pat ++ rest) = true := by
  induction pre with
  | nil =>
    cases pat with
    | nil => exact absurd rfl hpat
    | cons p ps => simp [infixOfChars, isPrefixOf_append (p :: ps) rest]
  | cons c cs ih =>
    simp only [List.cons_append, infixOfChars, List.append_eq, ih, Bool.or_true]

theorem splitChar_no_sep (sep : Char) (l : List Char)
    (h : ∀ c ∈ l, c ≠ sep) : splitChar sep l = [l] := by
  induction l with
  | nil => rfl
  | cons c cs ih =>
    have hc : c ≠ sep := h c (List.mem_cons_self c cs)
    have ih' := ih (fun d hd => h d (List.mem_cons_of_mem c hd))
    simp [splitChar, hc, ih']

theorem splitChar_append_sep (sep : Char) (a b : List Char)
    (ha : ∀ c ∈ a, c ≠ sep) :
    splitChar sep (a ++ sep :: b) = a :: splitChar sep b := by
  induction a with
  | nil => simp [splitChar]
  | cons c cs ih =>
    have hc : c ≠ sep := ha c (List.mem_cons_self c cs)
    have ih' := ih (fun d hd => ha d (List.mem_cons_of_mem c hd))
    simp [splitChar, hc, ih']

theorem mkData_eq (s : String) : String.mk s.data = s := by
  cases s; rfl

theorem hasItem_ge (inv : Inventory) (item : String) (n : Int) (hitem : item ≠ "")
    (h : hasItem inv item n = true) : jsGet inv item ≥ n := by
  simpa [hasItem, hitem] using h

/-- Removing one unit of a held item decrements its quantity by one
(deleting the key when none remain). -/
theorem removeItem_one (inv : Inventory) (item : String)
    (hnd : (inv.map Prod.fst).Nodup) (hitem : item ≠ "")
    (hhave : hasItem inv item 1 = true) :
    ∃ inv', removeItem inv item 1 = some inv' ∧
      jsGet inv' item = jsGet inv item - 1 := by
  have hge := hasItem_ge inv item 1 hitem hhave
  by_cases hz : jsGet inv item ≤ 1
  · refine ⟨jsDelete (jsSet inv item (jsGet inv item - 1)) item, ?_, ?_⟩
    · simp [removeItem, hitem, hhave, jsGet_jsSet,
        show jsGet inv item - 1 ≤ 0 by omega]
    · have h0 : jsGet inv item = 1 := by omega
      have hdel := jsGet_jsDelete (jsSet inv item (jsGet inv item - 1)) item
        (keys_nodup_jsSet inv item _ hnd)
      omega
  · refine ⟨jsSet inv item (jsGet inv item - 1), ?_, jsGet_jsSet ..⟩
    simp [removeItem, hitem, hhave, jsGet_jsSet, hz]

/-- Character-level well-formedness of an item or quantity token:
no whitespace and no colon (an abbreviation, so that concrete instances
stay decidable). -/
abbrev tokenChars (s : String) : Prop :=
  ∀ c ∈ s.data, c.isWhitespace = false ∧ c ≠ ':'

theorem rest_nows {item q : String} (hic : tokenChars item) (hqc : tokenChars q) :
    ∀ c ∈ item.data ++ ':' :: q.data, c.isWhitespace = false := by
  intro c hc
  rcases List.mem_append.mp hc with h | h
  · exact (hic c h).1
  · rcases List.mem_cons.mp h with h | h
    · subst h; decide
    · exact (hqc c h).1

theorem jsTrim_token {s : String} (hc : tokenChars s) : jsTrim s = s := by
  unfold jsTrim
  rw [trimChars_of_nows (fun c h => (hc c h).1), mkData_eq]

theorem jsSplit_token_pair (item q : String)
    (hic : tokenChars item) (hqc : tokenChars q) :
    jsSplit ⟨item.data ++ ':' :: q.data⟩ ':' = [item, q] := by
  unfold jsSplit
  rw [show (String.mk (item.data ++ ':' :: q.data)).data = item.data ++ ':' :: q.data from rfl]
  rw [splitChar_append_sep ':' item.data q.data (fun c h => (hic c h).2),
    splitChar_no_sep ':' q.data (fun c h => (hqc c h).2)]
  simp [mkData_eq]

theorem applyConsequence_use_reduces (inv : Inventory) (item q : String)
    (hic : tokenChars item) (hqc : tokenChars q) :
    applyInventoryConsequence inv ("USE " ++ item ++ ":" ++ q) =
      removeItem inv item (parseIntOr1 q) := by
  have hrest := rest_nows hic hqc
  have hrne : item.data ++ ':' :: q.data ≠ ([] : List Char) := by simp
  have hdata : ("USE " ++ item ++ ":" ++ q).data
      = "USE ".data ++ (item.data ++ ':' :: q.data) := by
    simp [String.data_append]
  have hne : ("USE " ++ item ++ ":" ++ q) ≠ "" := by
    intro h
    apply hrne
    have h2 := congrArg String.data h
    rw [hdata] at h2
    simp at h2
  have htrim : jsTrim ("USE " ++ item ++ ":" ++ q) = "USE " ++ item ++ ":" ++ q := by
    unfold jsTrim
    rw [hdata, trimChars_append_of_nows _ _ ?_ hrest hrne, ← hdata, mkData_eq]
    intro c hc
    have hu : ("USE ".data).head? = some 'U' := rfl
    rw [hu] at hc
    cases hc
    decide
  have hstarts : strStartsWith ("USE " ++ item ++ ":" ++ q) "USE " = true := by
    unfold strStartsWith
    rw [hdata]
    exact isPrefixOf_append _ _
  have hdrop : ("USE " ++ item ++ ":" ++ q).data.drop 4 = item.data ++ ':' :: q.data := by
    rw [hdata, show (4 : Nat) = "USE ".data.length from rfl, List.drop_left]
  have htrim2 : jsTrim ⟨item.data ++ ':' :: q.data⟩ = ⟨item.data ++ ':' :: q.data⟩ := by
    unfold jsTrim
    rw [show (String.mk (item.data ++ ':' :: q.data)).data = item.data ++ ':' :: q.data from rfl]
    rw [trimChars_of_nows hrest]
  have hinc : jsIncludes ⟨item.data ++ ':' :: q.data⟩ ":" = true := by
    unfold jsIncludes
    show infixOfChars [':'] (item.data ++ ':' :: q.data) = true
    have := infixOfChars_append_left item.data [':'] q.data (by simp)
    simpa using this
  unfold applyInventoryConsequence
  rw [if_neg hne]
  simp only [htrim, hstarts, if_true, hdrop, htrim2]
  unfold applyUse
  simp only [hinc, if_true, jsSplit_token_pair item q hic hqc, List.map_cons,
    List.map_nil, jsTrim_token hic, jsTrim_token hqc, destructurePair]

theorem applyConsequence_setinv_reduces (inv : Inventory) (item q : String)
    (hic : tokenChars item) (hqc : tokenChars q) :
    applyInventoryConsequence inv ("SET inventory:" ++ item ++ ":" ++ q) =
      (if parseIntOr1 q > 0 then addItem inv item (parseIntOr1 q)
       else if parseIntOr1 q < 0 then removeItem inv item (-(parseIntOr1 q))
       else none) := by
  have hrest := rest_nows hic hqc
  have hrne : item.data ++ ':' :: q.data ≠ ([] : List Char) := by simp
  have hrest2 : ∀ c ∈ "inventory:".data ++ (item.data ++ ':' :: q.data),
      c.isWhitespace = false := by
    intro c hc
    rcases List.mem_append.mp hc with h | h
    · fin_cases h <;> decide
    · exact hrest c h
  have hrne2 : "inventory:".data ++ (item.data ++ ':' :: q.data) ≠ ([] : List Char) := by
    simp
  have hdata : ("SET inventory:" ++ item ++ ":" ++ q).data
      = "SET ".data ++ ("inventory:".data ++ (item.data ++ ':' :: q.data)) := by
    simp [String.data_append]
  have hne : ("SET inventory:" ++ item ++ ":" ++ q) ≠ "" := by
    intro h
    have h2 := congrArg String.data h
    rw [hdata] at h2
    simp at h2
  have htrim : jsTrim ("SET inventory:" ++ item ++ ":" ++ q)
      = "SET inventory:" ++ item ++ ":" ++ q := by
    unfold jsTrim
    rw [hdata, trimChars_append_of_nows _ _ ?_ hrest2 hrne2, ← hdata, mkData_eq]
    intro c hc
    have hu : ("SET ".data).head? = some 'S' := rfl
    rw [hu] at hc
    cases hc
    decide
  have hnuse : strStartsWith ("SET inventory:" ++ item ++ ":" ++ q) "USE " = false := by
    unfold strStartsWith
    rw [hdata]
    rfl
  have hsset : strStartsWith ("SET inventory:" ++ item ++ ":" ++ q) "SET " = true := by
    unfold strStartsWith
    rw [hdata]
    exact isPrefixOf_append _ _
  have hincinv : jsIncludes ("SET inventory:" ++ item ++ ":" ++ q) "inventory:" = true := by
    unfold jsIncludes
    rw [hdata, show ("inventory:".data ++ (item.data ++ ':' :: q.data))
      = "inventory:".data ++ (item.data ++ ':' :: q.data) from rfl]
    have := infixOfChars_append_left "SET ".data "inventory:".data
      (item.data ++ ':' :: q.data) (by simp)
    simpa [List.append_assoc] using this
  have hdrop : ("SET inventory:" ++ item ++ ":" ++ q).data.drop 4
      = "inventory:".data ++ (item.data ++ ':' :: q.data) := by
    rw [hdata, show (4 : Nat) = "SET ".data.length from rfl, List.drop_left]
  have htrimspec : jsTrim ⟨"inventory:".data ++ (item.data ++ ':' :: q.data)⟩
      = ⟨"inventory:".data ++ (item.data ++ ':' :: q.data)⟩ := by
    unfold jsTrim
    rw [show (String.mk ("inventory:".data ++ (item.data ++ ':' :: q.data))).data
      = "inventory:".data ++ (item.data ++ ':' :: q.data) from rfl]
    rw [trimChars_of_nows hrest2]
  have hsinv : strStartsWith ⟨"inventory:".data ++ (item.data ++ ':' :: q.data)⟩
      "inventory:" = true := by
    unfold strStartsWith
    exact isPrefixOf_append _ _
  have hdrop10 : (String.mk ("inventory:".data ++ (item.data ++ ':' :: q.data))).data.drop 10
      = item.data ++ ':' :: q.data := by
    rw [show (String.mk ("inventory:".data ++ (item.data ++ ':' :: q.data))).data
      = "inventory:".data ++ (item.data ++ ':' :: q.data) from rfl]
    rw [show (10 : Nat) = "inventory:".data.length from rfl, List.drop_left]
  unfold applyInventoryConsequence
  rw [if_neg hne]
  simp only [htrim, hnuse, Bool.false_eq_true, if_false, hsset, hincinv,
    and_self, if_true, hdrop, htrimspec]
  unfold applySetInventory
  simp only [hsinv, if_true, hdrop10, jsSplit_token_pair item q hic hqc, List.map_cons,
    List.map_nil, jsTrim_token hic, jsTrim_token hqc, destructurePair]

theorem getLast?_take_eq {α : Type} (l : List α) (n : Nat) (h1 : 1 ≤ n)
    (h2 : n ≤ l.length) : (l.take n).getLast? = l[n - 1]? := by
  rw [List.getLast?_eq_getElem?, List.length_take, Nat.min_eq_left h2,
    List.getElem?_take, if_pos (by omega)]

theorem dropLast_take_eq {α : Type} (l : List α) (n : Nat) (h2 : n ≤ l.length) :
    (l.take n).dropLast = l.take (n - 1) := by
  rw [List.dropLast_eq_take, List.take_take, List.length_take, Nat.min_eq_left h2,
    Nat.min_eq_left (by omega)]

/-- On a back navigation (`isGoingBack` set), entering a step changes no
session data beyond the current step: nothing is pushed to the history and
the inventory is untouched. -/
theorem displayStoryAndMenu_back (s : EngineState) (stepKey : String)
    (hgb : s.isGoingBack = true) :
    (displayStoryAndMenu s stepKey).1.gameData.currentStep = some stepKey ∧
    (displayStoryAndMenu s stepKey).1.storyHistory = s.storyHistory ∧
    (displayStoryAndMenu s stepKey).1.currentHistoryIndex = s.currentHistoryIndex ∧
    (displayStoryAndMenu s stepKey).1.inventory = s.inventory := by
  unfold displayStoryAndMenu
  simp only [hgb, not_true_eq_false, false_and, if_false, Bool.not_eq_true]
  rcases h : jsLookup s.gameData.steps stepKey with _ | step
  · simp [h]
  · simp only [h]
    by_cases hch : step.choices.length > 0
    · simp [if_pos hch]
    · simp [if_neg hch]

/-! ## Claim theorems -/

/-- C5: `goBack` pops the most recent (spec-level) history entry and
re-enters the step recorded there, applying no consequences (the inventory
is untouched); with an empty spec-level history it is a no-op on the
session (current step, history, inventory unchanged), reported with the
no-previous-page message. Stated for any state whose history index is in
range and whose history entries are non-empty step keys (both hold for
every reachable state: entries are only pushed from a non-empty
`currentStep`). -/
theorem goBack_spec (s : EngineState)
    (hlen : s.currentHistoryIndex < (s.storyHistory.length : Int))
    (hne : "" ∉ s.storyHistory) :
    (s.currentHistoryIndex ≤ 0 →
      sessionView (goBackSelect s).1 = sessionView s ∧
      (goBackSelect s).2 = some "No previous page to return to.") ∧
    (0 < s.currentHistoryIndex →
      (goBackSelect s).1.gameData.currentStep = (abstractHistory s).getLast? ∧
      abstractHistory (goBackSelect s).1 = (abstractHistory s).dropLast ∧
      (goBackSelect s).1.inventory = s.inventory) := by
  constructor
  · intro h
    have hng : ¬ s.currentHistoryIndex > 0 := by omega
    constructor
    · simp [goBackSelect, goBackInHistory, hng, optStrTruthy, sessionView,
        abstractHistory]
    · simp [goBackSelect, goBackInHistory, hng, optStrTruthy]
  · intro h
    have hn1 : 1 ≤ s.currentHistoryIndex.toNat := by omega
    have hnlen : s.currentHistoryIndex.toNat ≤ s.storyHistory.length := by omega
    have hidx : (s.currentHistoryIndex - 1).toNat = s.currentHistoryIndex.toNat - 1 := by
      omega
    have hlt : s.currentHistoryIndex.toNat - 1 < s.storyHistory.length := by omega
    obtain ⟨e, he⟩ : ∃ e, s.storyHistory[s.currentHistoryIndex.toNat - 1]? = some e :=
      ⟨_, List.getElem?_eq_getElem hlt⟩
    have hee : e ∈ s.storyHistory := by
      obtain ⟨hb, hg⟩ := List.getElem?_eq_some.mp he
      exact hg ▸ List.getElem_mem hb
    have henn : e ≠ "" := fun hh => hne (hh ▸ hee)
    have hgb : goBackInHistory { s with isGoingBack := true } =
        ({ s with isGoingBack := true, currentHistoryIndex := s.currentHistoryIndex - 1 }, some e) := by
      simp only [goBackInHistory, h, if_pos]
      rw [List.get?_eq_getElem?, hidx, he]
    have hlast : (abstractHistory s).getLast? = some e := by
      rw [abstractHistory, getLast?_take_eq _ _ hn1 hnlen, he]
    have hdrop : (abstractHistory s).dropLast
        = s.storyHistory.take (s.currentHistoryIndex.toNat - 1) :=
      dropLast_take_eq _ _ hnlen
    have hres : (goBackSelect s) = displayStoryAndMenu
        { s with isGoingBack := true, currentHistoryIndex := s.currentHistoryIndex - 1 } e := by
      unfold goBackSelect
      simp only [hgb, optStrTruthy, henn, ne_eq, not_false_eq_true, decide_True,
        if_true, Option.getD_some]
    obtain ⟨hc, hh, hi, hv⟩ := displayStoryAndMenu_back
      { s with isGoingBack := true, currentHistoryIndex := s.currentHistoryIndex - 1 } e rfl
    rw [hres]
    refine ⟨?_, ?_, ?_⟩
    · rw [hc, hlast]
    · rw [abstractHistory, hh, hi, hdrop]
      simp [hidx]
    · rw [hv]

/-- C5 witness: the specification of `goBack` instantiated at the concrete
played session `c5s` (step 2 current, step 1 before it) and at `c5s0`
(empty spec-level history). -/
theorem goBack_spec_witness :
    ((c5s.currentHistoryIndex ≤ 0 →
        sessionView (goBackSelect c5s).1 = sessionView c5s ∧
        (goBackSelect c5s).2 = some "No previous page to return to.") ∧
      (0 < c5s.currentHistoryIndex →
        (goBackSelect c5s).1.gameData.currentStep = (abstractHistory c5s).getLast? ∧
        abstractHistory (goBackSelect c5s).1 = (abstractHistory c5s).dropLast ∧
        (goBackSelect c5s).1.inventory = c5s.inventory)) ∧
    ((c5s0.currentHistoryIndex ≤ 0 →
        sessionView (goBackSelect c5s0).1 = sessionView c5s0 ∧
        (goBackSelect c5s0).2 = some "No previous page to return to.") ∧
      (0 < c5s0.currentHistoryIndex →
        (goBackSelect c5s0).1.gameData.currentStep = (abstractHistory c5s0).getLast? ∧
        abstractHistory (goBackSelect c5s0).1 = (abstractHistory c5s0).dropLast ∧
        (goBackSelect c5s0).1.inventory = c5s0.inventory)) :=
  ⟨goBack_spec c5s (by decide) (by decide), goBack_spec c5s0 (by decide) (by decide)⟩

/-- C7 counterexample: the text `gold:zero` matches neither spec form
(`<item>` — it contains a colon — nor `<item>:<qty>` — the quantity is not
numeric), yet on an empty inventory the code evaluates it as unsatisfied,
not as satisfied: the permissive default applies only to empty text. -/
theorem condition_unrecognized_text_unsatisfied :
    specCondItemForm "gold:zero" = false ∧
    specCondItemQtyForm "gold:zero" = false ∧
    checkInventoryCondition [] "gold:zero" = false := by decide

/-- C7 (amended): `evaluateCondition` recognizes `<item>` (quantity at
least 1, the text trimmed) and `<item>:<qty>` (quantity `parseInt(qty)`,
falling back to 1 when the suffix parses to 0 or is non-numeric); only
empty text is unconditionally satisfied; any other unrecognized text is
still interpreted as an item lookup, so it can evaluate unsatisfied. -/
theorem checkInventoryCondition_forms (inv : Inventory) (t item q : String)
    (htne : t ≠ "") (hti : jsIncludes t ":" = false)
    (hic : tokenChars item) (hqc : tokenChars q) :
    checkInventoryCondition inv "" = true ∧
    checkInventoryCondition inv t = hasItem inv (jsTrim t) 1 ∧
    checkInventoryCondition inv (item ++ ":" ++ q) = hasItem inv item (parseIntOr1 q) := by
  refine ⟨rfl, ?_, ?_⟩
  · simp [checkInventoryCondition, htne, hti]
  · have hdata : (item ++ ":" ++ q).data = item.data ++ ':' :: q.data := by
      simp [String.data_append]
    have hne : item ++ ":" ++ q ≠ "" := by
      intro hh
      have h2 := congrArg String.data hh
      rw [hdata] at h2
      simp at h2
    have hinc : jsIncludes (item ++ ":" ++ q) ":" = true := by
      unfold jsIncludes
      rw [show (item ++ ":" ++ q).data = item.data ++ ':' :: q.data from hdata]
      simpa using infixOfChars_append_left item.data [':'] q.data (by simp)
    have hsplit : jsSplit (item ++ ":" ++ q) ':' = [item, q] := by
      unfold jsSplit
      rw [hdata, splitChar_append_sep ':' item.data q.data (fun c h => (hic c h).2),
        splitChar_no_sep ':' q.data (fun c h => (hqc c h).2)]
      simp [mkData_eq]
    simp only [checkInventoryCondition, if_neg hne, hinc, if_true, hsplit,
      List.map_cons, List.map_nil, jsTrim_token hic, jsTrim_token hqc]

/-- C7 witness: the amended statement instantiated at inventory
`gold: 5`, plain text `gold`, and the pair `gold`/`zero`. -/
theorem checkInventoryCondition_forms_witness :
    checkInventoryCondition [("gold", 5)] "" = true ∧
    checkInventoryCondition [("gold", 5)] "gold" = hasItem [("gold", 5)] (jsTrim "gold") 1 ∧
    checkInventoryCondition [("gold", 5)] ("gold" ++ ":" ++ "zero")
      = hasItem [("gold", 5)] "gold" (parseIntOr1 "zero") :=
  checkInventoryCondition_forms [("gold", 5)] "gold" "gold" "zero"
    (by decide) (by decide) (by decide) (by decide)

/-- C8: for every non-blank line of a CHOICES block failing the choice
grammar, `parseChoices` raises the hard `Malformed choice line` error
naming a non-blank non-matching line (the first such line, since parsing
aborts there) — in particular the result is an error, so no failing line
is ever silently skipped. -/
theorem parseChoices_rejects_malformed_lines (lines : List String) (l : String)
    (hl : l ∈ lines) (hnb : jsTrim l ≠ "") (hnm : matchChoiceLine (jsTrim l) = none) :
    ∃ l', l' ∈ lines ∧ jsTrim l' ≠ "" ∧ matchChoiceLine (jsTrim l') = none ∧
      parseChoices lines = .error ("Malformed choice line: \"" ++ jsTrim l' ++ "\"") := by
  induction lines with
  | nil => cases hl
  | cons line rest ih =>
    rcases hm : matchChoiceLine (jsTrim line) with _ | rc
    · by_cases hb : jsTrim line = ""
      · have hlr : l ∈ rest := by
          rcases List.mem_cons.mp hl with hh | hh
          · exact absurd (hh ▸ hb) hnb
          · exact hh
        obtain ⟨l', h1, h2, h3, h4⟩ := ih hlr
        have hm0 : matchChoiceLine "" = none := rfl
        exact ⟨l', List.mem_cons_of_mem _ h1, h2, h3,
          by simp [parseChoices, hb, hm0, h4]⟩
      · refine ⟨line, List.mem_cons_self line rest, hb, hm, ?_⟩
        simp [parseChoices, hm, hb]
    · have hlr : l ∈ rest := by
        rcases List.mem_cons.mp hl with hh | hh
        · rw [hh, hm] at hnm
          cases hnm
        · exact hh
      obtain ⟨l', h1, h2, h3, h4⟩ := ih hlr
      refine ⟨l', List.mem_cons_of_mem _ h1, h2, h3, ?_⟩
      simp [parseChoices, hm, h4, Except.map]

/-- C8 witness: the spec example `A) go STEP_2` (missing arrow) inside a
one-line block is a hard error naming the line. -/
theorem parseChoices_rejects_malformed_lines_witness :
    ∃ l', l' ∈ ["A) go STEP_2"] ∧ jsTrim l' ≠ "" ∧ matchChoiceLine (jsTrim l') = none ∧
      parseChoices ["A) go STEP_2"]
        = .error ("Malformed choice line: \"" ++ jsTrim l' ++ "\"") :=
  parseChoices_rejects_malformed_lines ["A) go STEP_2"] "A) go STEP_2"
    (by decide) (by decide) (by decide)

/-- C9: a RANDOM_EVENT line whose `chance` field parses to `0` is rejected
with the malformed-line error, exactly as when the field is missing
(`chance` is tested for JS truthiness, and both `0` and `NaN`/absent are
falsy). Stated for any single-line content. -/
theorem parseRandomEvent_rejects_zero_chance (line : String)
    (hnl : ∀ c ∈ line.data, c ≠ '\n')
    (hnb : jsTrim line ≠ "")
    (hch : (buildEvent (jsTrim line)).chance = some 0 ∨
      (buildEvent (jsTrim line)).chance = none) :
    parseRandomEvent line
      = .error ("Malformed random event line: \"" ++ jsTrim line ++ "\"") := by
  have hsplit : jsSplit line '\n' = [line] := by
    unfold jsSplit
    rw [splitChar_no_sep '\n' line.data hnl]
    simp [mkData_eq]
  have hcht : chanceTruthy (buildEvent (jsTrim line)) = false := by
    rcases hch with hh | hh <;> simp [chanceTruthy, hh]
  unfold parseRandomEvent
  rw [hsplit]
  simp [List.foldlM, hnb, hcht]

/-- C9 witness: `chance: 0, outcome: STEP_2` is rejected with the
malformed-line error. -/
theorem parseRandomEvent_rejects_zero_chance_witness :
    parseRandomEvent "chance: 0, outcome: STEP_2" = .error
      ("Malformed random event line: \"" ++ jsTrim "chance: 0, outcome: STEP_2" ++ "\"") :=
  parseRandomEvent_rejects_zero_chance "chance: 0, outcome: STEP_2"
    (by decide) (by decide) (by decide)

/-- C10: in `applyInventoryConsequence` a quantity suffix that parses to 0
or is non-numeric falls back to 1 (`parseInt(...) || 1`): for any held
item, `USE <item>:<qty>` removes exactly one unit, and
`SET inventory:<item>:<qty>` adds exactly one unit. Stated for any
inventory with distinct keys and any colon- and whitespace-free tokens. -/
theorem applyConsequence_qty_zero_defaults_one (inv : Inventory) (item q : String)
    (hnd : (inv.map Prod.fst).Nodup)
    (hitem : item ≠ "")
    (hic : tokenChars item) (hqc : tokenChars q)
    (hq : jsParseInt q = some 0 ∨ jsParseInt q = none)
    (hhave : hasItem inv item 1 = true) :
    (∃ inv', applyInventoryConsequence inv ("USE " ++ item ++ ":" ++ q) = some inv' ∧
      jsGet inv' item = jsGet inv item - 1) ∧
    (∃ inv2, applyInventoryConsequence inv ("SET inventory:" ++ item ++ ":" ++ q)
        = some inv2 ∧
      jsGet inv2 item = jsGet inv item + 1) := by
  have hq1 : parseIntOr1 q = 1 := by
    rcases hq with hh | hh <;> simp [parseIntOr1, hh]
  constructor
  · rw [applyConsequence_use_reduces inv item q hic hqc, hq1]
    exact removeItem_one inv item hnd hitem hhave
  · rw [applyConsequence_setinv_reduces inv item q hic hqc, hq1]
    refine ⟨jsSet inv item (jsGet inv item + 1), ?_, jsGet_jsSet ..⟩
    simp [addItem, hitem]

/-- C10 witness: with two keys held, `USE key:0` leaves one and
`SET inventory:key:0` yields three. -/
theorem applyConsequence_qty_zero_defaults_one_witness :
    (∃ inv', applyInventoryConsequence [("key", 2)] ("USE " ++ "key" ++ ":" ++ "0")
        = some inv' ∧
      jsGet inv' "key" = jsGet [("key", 2)] "key" - 1) ∧
    (∃ inv2, applyInventoryConsequence [("key", 2)] ("SET inventory:" ++ "key" ++ ":" ++ "0")
        = some inv2 ∧
      jsGet inv2 "key" = jsGet [("key", 2)] "key" + 1) :=
  applyConsequence_qty_zero_defaults_one [("key", 2)] "key" "0"
    (by decide) (by decide) (by decide) (by decide) (by decide) (by decide)

/-- C1: evaluated at the failing input `c1doc` — the document loads, its
sole step-1 choice carries the condition `key`, the session inventory does
not satisfy that condition, yet the choice is offered in the menu and
selecting it is neither filtered nor rejected: no error is reported and
the session moves to step 2. The engine never consults
`checkInventoryCondition`. -/
theorem selectChoice_ignores_conditions :
    (parseFile c1doc).isOk = true ∧
    ((jsLookup c1gd.steps "1").getD {}).choices.map Choice.conditions = [["key"]] ∧
    checkInventoryCondition c1s.inventory "key" = false ∧
    c1s.currentMenuItems = ["A) Use the key"] ∧
    c1s.currentMenuType = "story_choices" ∧
    (handleMenuNavigationStory c1s 0).2 = none ∧
    (handleMenuNavigationStory c1s 0).1.gameData.currentStep = some "2" ∧
    sessionView (handleMenuNavigationStory c1s 0).1 ≠ sessionView c1s := by
  decide

/-- C2: evaluated at the failing input `c2doc` with inventory `key: 1` —
the step-1 choice carries the consequence `USE key`; selecting it succeeds
and moves to step 3, but the inventory is untouched and `hasItem("key")`
is still true afterwards (the claim requires false), although the
documented consequence interpreter `applyInventoryConsequence` would have
consumed the key. The engine never calls it. -/
theorem selectChoice_ignores_consequences :
    (parseFile c2doc).isOk = true ∧
    ((jsLookup c2gd.steps "1").getD {}).choices.map Choice.consequences = [["USE key"]] ∧
    hasItem c2s.inventory "key" 1 = true ∧
    (handleMenuNavigationStory c2s 0).2 = none ∧
    (handleMenuNavigationStory c2s 0).1.gameData.currentStep = some "3" ∧
    (handleMenuNavigationStory c2s 0).1.inventory = c2s.inventory ∧
    hasItem (handleMenuNavigationStory c2s 0).1.inventory "key" 1 = true ∧
    applyInventoryConsequence c2s.inventory "USE key" = some [] := by
  decide

/-- C3 counterexample: `c3doc` contains a choice whose target `STEP_99`
resolves neither to a present step nor to an ending kind, yet `parseFile`
succeeds — no ValidationError is raised at load time. -/
theorem parseFile_accepts_dangling_target :
    (parseFile c3doc).isOk = true ∧
    ((jsLookup c3gd.steps "1").getD {}).choices.map Choice.target = ["STEP_99"] ∧
    jsLookup c3gd.steps "99" = none := by
  decide

/-- C3 (amended): loading validates only that the game name, the main menu
and the step map are non-empty; a dangling choice target is not checked at
load time — the document loads, and the dangling reference surfaces at
runtime as the `Step not found` error when the choice is selected (after
the session state has already moved to the missing step). -/
theorem dangling_target_surfaces_at_runtime :
    (parseFile c3doc).isOk = true ∧
    (handleMenuNavigationStory c3s 0).2 = some "Error: Step 99 not found." ∧
    (handleMenuNavigationStory c3s 0).1.gameData.currentStep = some "99" := by
  decide

/-- C4: evaluated at the failing input — a session of `c4doc` at step 2
with history `["1", "2"]`, user name `Sam` and inventory `key: 1` is
serialized; resuming the blob in a fresh browser session re-enters step 2
but restores neither the history nor the user name nor the inventory,
because the Load Game branch calls `loadGameState(gameState)` while
`gameState.js` declares `loadGameState(gameName, slot)` and looks up the
key `piGameSavestate_[object Object]_undefined` in an empty `localStorage`.
The round trip is not the identity on the session. -/
theorem resumeSession_discards_saved_state :
    (c4blob.storyHistory = ["1", "2"] ∧ c4blob.currentHistoryIndex = 1 ∧
      c4blob.currentStep = some "2" ∧ c4blob.userName = "Sam" ∧
      c4blob.inventory.inventory = [("key", 1)]) ∧
    c4resumed.1.gameData.currentStep = some "2" ∧
    c4resumed.1.storyHistory = ["2"] ∧
    c4resumed.1.currentHistoryIndex = 0 ∧
    c4resumed.1.userName = "" ∧
    c4resumed.1.inventory = [] ∧
    sessionView c4resumed.1 ≠ sessionView c4s := by
  decide

/-- C6 counterexample: `c6doc` contains a CHOICES block with two
well-formed lines both labelled `A`, yet loading succeeds — no error of
any kind is raised. -/
theorem parseFile_accepts_duplicate_labels :
    (parseFile c6doc).isOk = true ∧
    ((jsLookup c6gd.steps "1").getD {}).choices.map Choice.label = ["A", "A"] := by
  decide

/-- C6 (amended): loading does not detect duplicate choice labels — a
CHOICES block with two choices bearing the same label parses successfully,
keeping both choices in document order with their respective targets. -/
theorem duplicate_labels_both_kept :
    (parseFile c6doc).isOk = true ∧
    ((jsLookup c6gd.steps "1").getD {}).choices.map (fun c => (c.label, c.target))
      = [("A", "STEP_2"), ("A", "STEP_3")] := by
  decide

end CYOA
